import Mathlib

/-!
Verification of the report-query compiler in
`analytics/analytics/doctype/query/query.py` (class `Query`).

The Python document class is embedded as pure Lean functions over an
explicit `QueryDoc` state.  Fallible Python code (exceptions raised by
`frappe.throw`, `_dict(None)`, unknown registry names, `Order[...]`
lookups) is embedded with `Except Err`.  The registry module
`analytics/analytics/doctype/query/utils.py` (classes `Aggregations`,
`ColumnFormat`, `Operations`) is imported by `query.py` but is not part of
the sources under verification, so those three entry points are modelled
from the specification; each such definition carries a doc comment
starting with `Modelled from the spec:`.
-/

set_option linter.unusedVariables false

namespace Insights

/-- Failure modes of the embedded pipeline: `frappeThrow` models
`frappe.throw`, `typeError` models Python `TypeError`/`AttributeError`
raised by `_dict(None)` or by probing `None` values, `unknownTransform`
and `unknownOperator` model the registry failures the spec names
`UnknownTransform` / `UnknownOperator`, and `keyError` models the
`Order[order]` enum lookup failure in `Query.build`. -/
inductive Err where
  | frappeThrow (msg : String)
  | typeError
  | unknownTransform
  | unknownOperator
  | keyError
  deriving DecidableEq, Repr

/-- Python truthiness of an optional string: `None` and `""` are falsy. -/
def pyTruthy : Option String → Bool
  | none => false
  | some s => s != ""

/-- Python `str` rendering of an optional string (an f-string renders
`None` as the text `None`). -/
def pyStr : Option String → String
  | none => "None"
  | some s => s

/-- Whether a character list starts with the given pattern. -/
def listStarts (pattern s : List Char) : Bool :=
  match pattern, s with
  | [], _ => true
  | _ :: _, [] => false
  | a :: ps, b :: ss => a == b && listStarts ps ss

/-- Whether a character list has the given pattern as a contiguous
subsequence. -/
def listContains (pattern : List Char) : List Char → Bool
  | [] => pattern.isEmpty
  | c :: rest => listStarts pattern (c :: rest) || listContains pattern rest

/-- Python substring containment `pattern in s`. -/
def strContains (s pattern : String) : Bool :=
  listContains pattern.toList s.toList

/-- Python `s.split(sep)` for a one-character separator: splits at every
occurrence, so the empty string yields `[""]` and adjacent separators
yield empty pieces. -/
def pySplit (sep : Char) : List Char → List (List Char)
  | [] => [[]]
  | c :: rest =>
      if c == sep then [] :: pySplit sep rest
      else
        match pySplit sep rest with
        | h :: t => (c :: h) :: t
        | [] => [[c]]

/-- Python `s.lstrip().rstrip()`: surrounding whitespace removed. -/
def pyStrip (l : List Char) : List Char :=
  ((l.dropWhile Char.isWhitespace).reverse.dropWhile Char.isWhitespace).reverse

/-- Select expressions as built by `query.py`: a pypika field
`Table(table)[column].as_(label)` from `convert_to_select_field`, an
aggregation wrap from `Aggregations.apply`, or a format wrap from
`ColumnFormat.apply`. -/
inductive Expr where
  | field (table column label : Option String)
  | agg (fn : String) (arg : Expr)
  | format (fn : String) (arg : Expr)
  deriving DecidableEq, Repr

/-- The right operand of a filter operation as computed by
`Query.convert_to_expression`: a resolved column expression, a string
literal, a list of strings (the "in" coercion), or Python `None`. -/
inductive Operand where
  | expr (e : Expr)
  | str (s : String)
  | list (l : List String)
  | null
  deriving DecidableEq, Repr

/-- The predicates built by `Query.process_filters`: `Criterion.all` /
`Criterion.any` from the frappe query builder, and a binary operation
obtained from `Operations.get_operation`. -/
inductive Criterion where
  | all (cs : List Criterion)
  | any (cs : List Criterion)
  | operation (op : String) (left : Expr) (right : Operand)

/-- A parsed operand dictionary of a filter condition (`condition.left`
or `condition.right`): all keys are optional, mirroring `_dict.get`
returning `None` for missing keys. -/
structure OperandDict where
  table : Option String
  column : Option String
  label : Option String
  value : Option String
  deriving DecidableEq, Repr

/-- A parsed operator dictionary of a filter condition
(`condition.operator`): only its `value` key is ever read. -/
structure OperatorDict where
  value : Option String
  deriving DecidableEq, Repr

/-- A node of the parsed filter-tree JSON (`loads(self.filters)`): one
dynamic dictionary whose keys are all optional, mirroring the dict
probing in `process_filters` / `convert_to_expression`.  A group node is
recognized by a truthy `group_operator`; its children live in
`conditions`.  (A group whose `conditions` key is absent is modelled as
having the empty child list.) -/
inductive FilterNode where
  | mk (group_operator : Option String)
       (conditions : List FilterNode)
       (left : Option OperandDict)
       (right : Option OperandDict)
       (operator : Option OperatorDict)
       (right_type : Option String)

/-- Projection: the `group_operator` key of a filter node. -/
def FilterNode.group_operator : FilterNode → Option String
  | .mk g _ _ _ _ _ => g

/-- Projection: the `conditions` key of a filter node. -/
def FilterNode.conditions : FilterNode → List FilterNode
  | .mk _ c _ _ _ _ => c

/-- Projection: the `left` key of a filter node. -/
def FilterNode.left : FilterNode → Option OperandDict
  | .mk _ _ l _ _ _ => l

/-- Projection: the `right` key of a filter node. -/
def FilterNode.right : FilterNode → Option OperandDict
  | .mk _ _ _ r _ _ => r

/-- Projection: the `operator` key of a filter node. -/
def FilterNode.operator : FilterNode → Option OperatorDict
  | .mk _ _ _ _ o _ => o

/-- Projection: the `right_type` key of a filter node. -/
def FilterNode.right_type : FilterNode → Option String
  | .mk _ _ _ _ _ t => t

/-- Models `_dict(x)` applied to an optional dictionary: `_dict(None)`
raises `TypeError` in Python because `dict(None)` is not iterable. -/
def dictOf (d : Option OperandDict) : Except Err OperandDict :=
  match d with
  | none => .error .typeError
  | some d => .ok d

/-- Models `_dict(x)` applied to the optional operator dictionary. -/
def dictOfOp (d : Option OperatorDict) : Except Err OperatorDict :=
  match d with
  | none => .error .typeError
  | some d => .ok d

/-- Modelled from the spec: the single-wrap aggregation registry
`Aggregations.apply` of the missing `utils.py`.  Section 4.3 of the spec
gives the registry contract (named expression-wrapping transforms,
`UnknownTransform` on an unrecognized name) and fixes the net effect of
the `"Count Distinct"` path to exactly `Count(Distinct(X))`; since
`Query.process_aggregation` (which is in the sources) already performs
the `Distinct` and `Count` wraps itself after first calling
`Aggregations.apply("Count Distinct", column)`, the registry's own
`"Count Distinct"` entry must contribute no wrap, and is modelled as the
identity.  `"Group By"` never reaches the registry (the caller guards
it), so it is not in the recognized set. -/
def Aggregations.apply (aggregation : String) (column : Expr) : Except Err Expr :=
  if aggregation = "Count Distinct" then .ok column
  else if aggregation ∈ ["Sum", "Count", "Avg", "Min", "Max", "Distinct"] then
    .ok (.agg aggregation column)
  else .error .unknownTransform

/-- Modelled from the spec: the format names with a registered mapping in
the missing `utils.py` (`ColumnFormat`).  The spec does not enumerate the
recognized format names, so a representative set of date-granularity
formats is used; the claims depend only on the registry succeeding on a
recognized name and failing on an unrecognized one. -/
def ColumnFormat.known : List String :=
  ["Minute", "Hour", "Day", "Week", "Month", "Year"]

/-- Modelled from the spec: the format registry `ColumnFormat.apply` of
the missing `utils.py`.  Section 4.3 describes it as a named
expression-wrapping transform applied before aggregation, failing with
`UnknownTransform` on an unrecognized name. -/
def ColumnFormat.apply (fmt : String) (column : Expr) : Except Err Expr :=
  if fmt ∈ ColumnFormat.known then .ok (.format fmt column)
  else .error .unknownTransform

/-- Modelled from the spec: the operator names with a registered mapping
in the missing `utils.py` (`Operations`).  Section 4.2 lists "equals,
like, in, is-set, between, ..." and keys the literal coercion off the
substrings "like" / "in" / "set" of the operator name. -/
def Operations.known : List String :=
  ["equals", "not equals", "like", "not like", "in", "not in",
   "is set", "is not set", "between", "greater than", "less than"]

/-- Modelled from the spec: `Operations.get_operation` of the missing
`utils.py` maps an operator name to a binary predicate-construction
function and fails with `UnknownOperator` when the name has no mapping
(spec section 4.2). -/
def Operations.get_operation (value : Option String) :
    Except Err (Expr → Operand → Criterion) :=
  match value with
  | some v => if v ∈ Operations.known then .ok (Criterion.operation v)
              else .error .unknownOperator
  | none => .error .unknownOperator

/-- Embeds `Query.convert_to_select_field` (query.py lines 263-268):
`Table(table)[column].as_(label)`. -/
def convert_to_select_field (table column label : Option String) : Expr :=
  .field table column label

/-- Embeds `Query.convert_to_expression` (query.py lines 232-258): wraps
the three sub-dictionaries with `_dict` (raising on `None`), resolves the
left operand, resolves or coerces the right operand (wildcard-wrap for an
operator containing "like", comma-split with strip for "in", `None` for
"set", pass-through otherwise), and applies the operation from the
registry.  Probing `"like" in condition.operator.value` with a missing
`value` raises `TypeError`, as does `None.split(",")` in the "in"
branch. -/
def convert_to_expression (condition : FilterNode) : Except Err Criterion := do
  let left ← dictOf condition.left
  let right ← dictOf condition.right
  let operator ← dictOfOp condition.operator
  let operand_1 := convert_to_select_field left.table left.column left.label
  let operand_2 ←
    if condition.right_type = some "Column" then
      pure (Operand.expr (convert_to_select_field right.table right.column right.label))
    else do
      let opv ← match operator.value with
        | none => Except.error Err.typeError
        | some v => pure v
      if strContains opv "like" then
        pure (Operand.str ("%" ++ pyStr right.value ++ "%"))
      else if strContains opv "in" then
        match right.value with
        | none => Except.error Err.typeError
        | some v => pure (Operand.list
            ((pySplit ',' v.toList).map (fun d => String.mk (pyStrip d))))
      else if strContains opv "set" then
        pure Operand.null
      else
        pure (match right.value with
              | none => Operand.null
              | some v => Operand.str v)
  let operation ← Operations.get_operation operator.value
  pure (operation operand_1 operand_2)

mutual

/-- Embeds the inner `process_filter_group` of `Query.process_filters`
(query.py lines 208-224): folds the node's `conditions` with
`process_conditions`. -/
def process_filter_group (filter_group : FilterNode) : Except Err (List Criterion) :=
  match filter_group with
  | .mk _ conditions _ _ _ _ => process_conditions conditions

/-- The loop body of `process_filter_group`: a child with a truthy
`group_operator` is recursed into and wrapped with `Criterion.all` when
its combinator equals "All" and `Criterion.any` otherwise; any other
child is converted as a leaf condition. -/
def process_conditions : List FilterNode → Except Err (List Criterion)
  | [] => .ok []
  | f :: rest => do
      let cur ←
        if pyTruthy f.group_operator then do
          let group_condition ← process_filter_group f
          pure (if f.group_operator = some "All" then Criterion.all group_condition
                else Criterion.any group_condition)
        else
          convert_to_expression f
      let others ← process_conditions rest
      pure (cur :: others)

end

/-- Embeds `Query.process_filters` (query.py lines 205-230): processes
the root group and wraps the collected predicates with `Criterion.all`
when the root `group_operator` equals "All" and with `Criterion.any`
otherwise. -/
def process_filters (filters : FilterNode) : Except Err (List Criterion) := do
  let _filters ← process_filter_group filters
  pure [if filters.group_operator = some "All" then Criterion.all _filters
        else Criterion.any _filters]

/-- A child-table row of the `columns` field of a Query document.  All
fields are nullable strings; `name` is the stable row identifier frappe
assigns on save (absent on a freshly appended row). -/
structure ColumnRow where
  name : Option String
  type : Option String
  label : Option String
  table : Option String
  column : Option String
  table_label : Option String
  aggregation : Option String
  format : Option String
  order_by : Option String
  deriving DecidableEq, Repr

/-- The dictionary argument of `add_column` / `update_column` /
`remove_column`: `column.get(key)` yields `None` for a missing key. -/
structure ColumnInput where
  name : Option String
  type : Option String
  label : Option String
  table : Option String
  column : Option String
  table_label : Option String
  aggregation : Option String
  format : Option String
  order_by : Option String
  deriving DecidableEq, Repr

/-- The three accumulators of `Query.process_columns`: `self._columns`,
`self._group_by_columns` and `self._order_by_columns`. -/
structure ProcessedColumns where
  columns : List Expr
  group_by_columns : List Expr
  order_by_columns : List (Expr × String)

/-- Embeds `Query.process_aggregation` (query.py lines 192-203) with the
`self._group_by_columns` accumulator passed explicitly: any aggregation
other than "Group By" is first applied through the registry; "Count
Distinct" is then additionally wrapped with "Distinct" and "Count"; and
"Group By" appends the (unwrapped) column to the group-by accumulator. -/
def process_aggregation (aggregation : String) (column : Expr)
    (group_by_columns : List Expr) : Except Err (Expr × List Expr) := do
  let column ←
    if aggregation ≠ "Group By" then Aggregations.apply aggregation column
    else pure column
  let column ←
    if aggregation = "Count Distinct" then do
      let column ← Aggregations.apply "Distinct" column
      Aggregations.apply "Count" column
    else pure column
  let group_by_columns :=
    if aggregation = "Group By" then group_by_columns ++ [column]
    else group_by_columns
  pure (column, group_by_columns)

/-- The guarded format application of the `process_columns` loop
(query.py lines 178-179): `if row.format:` (Python truthiness) followed
by `process_column_format`, which is `ColumnFormat.apply(row.format,
column)`. -/
def apply_format_step (row : ColumnRow) (column : Expr) : Except Err Expr :=
  match row.format with
  | some f => if f = "" then pure column else ColumnFormat.apply f column
  | none => pure column

/-- The guarded aggregation application of the `process_columns` loop
(query.py lines 181-182): `if row.aggregation:` (Python truthiness)
followed by `process_aggregation`. -/
def apply_aggregation_step (row : ColumnRow) (column : Expr)
    (group_by_columns : List Expr) : Except Err (Expr × List Expr) :=
  match row.aggregation with
  | some a =>
      if a = "" then pure (column, group_by_columns)
      else process_aggregation a column group_by_columns
  | none => pure (column, group_by_columns)

/-- The loop body of `Query.process_columns` (query.py lines 175-187) for
one column row: resolve the select field, apply the format transform when
`row.format` is truthy, apply the aggregation when `row.aggregation` is
truthy, record an order-by pair when `row.order_by` is truthy, and append
the resulting expression to the select accumulator. -/
def process_columns_step (row : ColumnRow) (acc : ProcessedColumns) :
    Except Err ProcessedColumns := do
  let _column := convert_to_select_field row.table row.column row.label
  let _column ← apply_format_step row _column
  let res ← apply_aggregation_step row _column acc.group_by_columns
  let _column := res.1
  let order_by_columns :=
    match row.order_by with
    | some o => if o = "" then acc.order_by_columns
                else acc.order_by_columns ++ [(_column, o)]
    | none => acc.order_by_columns
  pure ⟨acc.columns ++ [_column], res.2, order_by_columns⟩

/-- Embeds `Query.process_columns` (query.py lines 170-187): folds
`process_columns_step` over the column rows starting from three empty
accumulators. -/
def process_columns (columns : List ColumnRow) : Except Err ProcessedColumns :=
  columns.foldlM (fun acc row => process_columns_step row acc) ⟨[], [], []⟩

/-- A child-table row of the `tables` field of a Query document. -/
structure TableRow where
  table : Option String
  label : Option String
  deriving DecidableEq, Repr

/-- The dict comprehension `{row.table: row.table_label for row in
self.columns}` of `Query.update_tables`: key order follows first
insertion, the value of a repeated key is the last one written. -/
def column_tables (columns : List ColumnRow) :
    List (Option String × Option String) :=
  columns.foldl
    (fun acc row =>
      if acc.any (fun p => p.1 = row.table) then
        acc.map (fun p => if p.1 = row.table then (p.1, row.table_label) else p)
      else acc ++ [(row.table, row.table_label)])
    []

/-- Embeds `Query.update_tables` (query.py lines 103-114): rebuilds the
`tables` child rows from the distinct tables of the column rows. -/
def update_tables (columns : List ColumnRow) : List TableRow :=
  (column_tables columns).map (fun p => { table := p.1, label := p.2 })

/-- Embeds `Query.process_tables` (query.py lines 164-168): one pypika
`Table` per table row, kept here as the table identifier. -/
def process_tables (tables : List TableRow) : List (Option String) :=
  tables.map (fun row => row.table)

/-- Embeds `Query.process_limit` (query.py lines 260-261):
`self._limit = self.limit or 10`, where an unset or zero stored limit is
falsy in Python. -/
def process_limit (limit : Option Int) : Int :=
  match limit with
  | none => 10
  | some n => if n = 0 then 10 else n

/-- The two pypika term attributes `Query.format_result` reads from each
select expression: `alias` and `name`. -/
structure PikaTerm where
  alias_ : Option String
  name : String
  deriving DecidableEq, Repr

/-- Python `d.alias or d.name`: the alias when it is truthy (present and
non-empty), the name otherwise. -/
def py_or_name (t : PikaTerm) : String :=
  match t.alias_ with
  | some a => if a = "" then t.name else a
  | none => t.name

/-- Embeds `Query.format_result` (query.py lines 270-272): prepends the
header row `[d.alias or d.name for d in self._columns]` to the result
rows. -/
def format_result (columns : List PikaTerm) (result : List (List String)) :
    List (List String) :=
  (columns.map py_or_name) :: result

/-- Modelled from the spec: the pypika `alias` / `name` attributes of the
select expressions, as read by `format_result` (pypika is an external
dependency).  A resolved field carries the alias set from the label by
`as_` and its raw column name; a wrapper function built by the registries
of the missing `utils.py` carries no alias of its own and its function
name. -/
def Expr.toTerm : Expr → PikaTerm
  | .field _ c l => { alias_ := l, name := pyStr c }
  | .agg fn _ => { alias_ := none, name := fn }
  | .format fn _ => { alias_ := none, name := fn }

/-- The query object assembled by `Query.build` (query.py lines
136-156): tables from `from_`, select expressions, group-by and order-by
lists, the `where` criteria and the limit. -/
structure SqlQuery where
  tables : List (Option String)
  selects : List Expr
  group_by : List Expr
  order_by : List (Expr × String)
  filters : List Criterion
  limit : Int

/-- Embeds `Query.build` (query.py lines 136-156).  Each order-by pair
goes through `Order[order]`, which raises `KeyError` unless the
direction is the name of a pypika `Order` member ("asc" or "desc"). -/
def build (tables : List (Option String)) (columns : List Expr)
    (group_by_columns : List Expr) (order_by_columns : List (Expr × String))
    (filters : List Criterion) (limit : Int) : Except Err SqlQuery := do
  let order_by ← order_by_columns.mapM (fun co =>
    if co.2 = "asc" || co.2 = "desc" then Except.ok co
    else Except.error Err.keyError)
  pure { tables := tables, selects := columns, group_by := group_by_columns,
         order_by := order_by, filters := filters, limit := limit }

/-- The persisted state of a Query document.  `filters` holds the parsed
form of the stored JSON string (a falsy stored string is `none`); `sql`
holds the built query object (the stored text is its cosmetic
pretty-printing); `result` holds the deserialized stored rows (the JSON
serialization by `dumps` is external and injective on this data). -/
structure QueryDoc where
  data_source : Option String
  columns : List ColumnRow
  filters : Option FilterNode
  limit : Option Int
  tables : List TableRow
  sql : Option SqlQuery
  result : List (List String)

/-- The compile-and-execute path of `Query.before_save` (query.py lines
121-128): `update_tables`, `process`, `build`, `execute` (the data-source
execution is the function argument `exec`, its rows are formatted by
`format_result`), yielding the new `tables` rows, the built query and the
formatted result. -/
def process_build_execute (doc : QueryDoc) (filters : FilterNode)
    (exec : SqlQuery → List (List String)) :
    Except Err (List TableRow × SqlQuery × List (List String)) := do
  let tables := update_tables doc.columns
  let _tables := process_tables tables
  let pc ← process_columns doc.columns
  let _filters ← process_filters filters
  let _limit := process_limit doc.limit
  let q ← build _tables pc.columns pc.group_by_columns pc.order_by_columns
            _filters _limit
  let raw := exec q
  let _result := format_result (pc.columns.map Expr.toTerm) raw
  pure (tables, q, _result)

/-- Embeds `Query.before_save` (query.py lines 116-128): with no column
rows or a falsy `filters` field the stored result becomes the empty
sequence and nothing else runs; otherwise the document is recompiled and
its `tables`, `sql` and `result` fields are overwritten. -/
def before_save (doc : QueryDoc) (exec : SqlQuery → List (List String)) :
    Except Err QueryDoc :=
  match doc.columns, doc.filters with
  | [], _ => .ok { doc with result := [] }
  | _ :: _, none => .ok { doc with result := [] }
  | _ :: _, some filters =>
      (process_build_execute doc filters exec).map
        (fun tqr => { doc with tables := tqr.1, sql := some tqr.2.1,
                               result := tqr.2.2 })

/-- The argument of `set_limit` as received over the wire: an integer, a
string, or a missing value. -/
inductive PyVal where
  | int (n : Int)
  | str (s : String)
  | none_
  deriving DecidableEq, Repr

/-- The numeric value of a non-empty digit string, `none` when some
character is not a digit. -/
def digitsVal (l : List Char) : Option Nat :=
  if l.isEmpty then none
  else l.foldl
    (fun acc c =>
      match acc with
      | none => none
      | some n => if c.isDigit then some (10 * n + (c.toNat - 48)) else none)
    (some 0)

/-- Integer parsing of a decimal string with an optional leading minus
sign. -/
def pyParseInt (s : String) : Option Int :=
  match s.toList with
  | '-' :: rest => (digitsVal rest).map (fun n => -(n : Int))
  | l => (digitsVal l).map (fun n => (n : Int))

/-- Models `frappe.utils.cint` (external frappe utility): integer
coercion that yields 0 whenever the input is missing or not numeric (the
truncation of float-shaped strings is not modelled; the claims exercise
integer and non-numeric inputs only). -/
def cint : PyVal → Int
  | .int n => n
  | .str s => (pyParseInt s).getD 0
  | .none_ => 0

/-- Embeds `Query.set_limit` (query.py lines 90-96): sanitize with
`cint`, throw on a zero (falsy) or negative result, otherwise store the
limit and save (which recompiles via `before_save`). -/
def set_limit (doc : QueryDoc) (limit : PyVal)
    (exec : SqlQuery → List (List String)) : Except Err QueryDoc :=
  let sanitized_limit := cint limit
  if sanitized_limit = 0 ∨ sanitized_limit < 0 then
    .error (.frappeThrow "Limit must be a positive integer")
  else
    before_save { doc with limit := some sanitized_limit } exec

/-- The dictionary literal of `Query.add_column` (query.py lines 35-42):
exactly the six listed keys are taken from the input; the appended child
row therefore has no `format`, no `order_by` and no row identifier yet. -/
def new_column (column : ColumnInput) : ColumnRow :=
  { name := none, type := column.type, label := column.label,
    table := column.table, column := column.column,
    table_label := column.table_label, aggregation := column.aggregation,
    format := none, order_by := none }

/-- Embeds `Query.add_column` (query.py lines 33-44): append the new row
and save. -/
def add_column (doc : QueryDoc) (column : ColumnInput)
    (exec : SqlQuery → List (List String)) : Except Err QueryDoc :=
  before_save { doc with columns := doc.columns ++ [new_column column] } exec

/-- The loop of `Query.update_column` (query.py lines 48-54): the first
row whose identifier equals the input's identifier has its `label`,
`format`, `order_by` and `aggregation` overwritten from the input. -/
def update_first (columns : List ColumnRow) (column : ColumnInput) :
    List ColumnRow :=
  match columns with
  | [] => []
  | row :: rest =>
      if row.name = column.name then
        { row with label := column.label, format := column.format,
                   order_by := column.order_by,
                   aggregation := column.aggregation } :: rest
      else row :: update_first rest column

/-- Embeds `Query.update_column` (query.py lines 46-56): update the first
matching row, then save. -/
def update_column (doc : QueryDoc) (column : ColumnInput)
    (exec : SqlQuery → List (List String)) : Except Err QueryDoc :=
  before_save { doc with columns := update_first doc.columns column } exec

/-- The loop of `Query.remove_column` (query.py lines 60-63): the first
row whose identifier equals the input's identifier is removed. -/
def remove_first (columns : List ColumnRow) (column : ColumnInput) :
    List ColumnRow :=
  match columns with
  | [] => []
  | row :: rest =>
      if row.name = column.name then rest
      else row :: remove_first rest column

/-- Embeds `Query.remove_column` (query.py lines 58-65): remove the first
matching row, then save. -/
def remove_column (doc : QueryDoc) (column : ColumnInput)
    (exec : SqlQuery → List (List String)) : Except Err QueryDoc :=
  before_save { doc with columns := remove_first doc.columns column } exec

/-- Reduction of a bind on a successful `Except` value. -/
@[simp] theorem ok_bind {ε α β : Type} (a : α) (f : α → Except ε β) :
    (Except.ok (ε := ε) a >>= f) = f a := rfl

/-- Reduction of a bind on a failed `Except` value. -/
@[simp] theorem error_bind {ε α β : Type} (e : ε) (f : α → Except ε β) :
    (Except.error (α := α) e >>= f) = Except.error e := rfl

/-- The `pure` of the `Except` monad is `Except.ok`. -/
@[simp] theorem pure_eq_ok {ε α : Type} (a : α) :
    (pure a : Except ε α) = Except.ok a := rfl

/-- Inversion of a successful bind: the first stage succeeded and the
second stage succeeded on its value. -/
theorem bind_eq_ok {ε α β : Type} {x : Except ε α} {f : α → Except ε β}
    {b : β} (h : x >>= f = .ok b) : ∃ a, x = .ok a ∧ f a = .ok b := by
  cases x with
  | error e => simp at h
  | ok a => exact ⟨a, rfl, by simpa using h⟩

/-- Saving never changes the definitional fields of the report: the
compile path only overwrites `tables`, `sql` and `result`. -/
theorem before_save_fields (doc : QueryDoc) (exec : SqlQuery → List (List String))
    (doc' : QueryDoc) (h : before_save doc exec = .ok doc') :
    doc'.data_source = doc.data_source ∧ doc'.columns = doc.columns ∧
    doc'.filters = doc.filters ∧ doc'.limit = doc.limit := by
  obtain ⟨ds, cols, fil, lim, tbl, sq, res⟩ := doc
  cases cols with
  | nil =>
      simp only [before_save, Except.ok.injEq] at h
      subst h
      exact ⟨rfl, rfl, rfl, rfl⟩
  | cons c cs =>
      cases fil with
      | none =>
          simp only [before_save, Except.ok.injEq] at h
          subst h
          exact ⟨rfl, rfl, rfl, rfl⟩
      | some f =>
          simp only [before_save] at h
          cases hpb : process_build_execute
              ⟨ds, c :: cs, some f, lim, tbl, sq, res⟩ f exec with
          | error e => rw [hpb] at h; simp [Except.map] at h
          | ok tqr =>
              rw [hpb] at h
              simp only [Except.map, Except.ok.injEq] at h
              subst h
              exact ⟨rfl, rfl, rfl, rfl⟩

/-- The `update_column` loop leaves the rows unchanged when no row
identifier matches. -/
theorem update_first_no_match (cols : List ColumnRow) (c : ColumnInput)
    (h : ∀ row ∈ cols, row.name ≠ c.name) : update_first cols c = cols := by
  induction cols with
  | nil => rfl
  | cons r rs ih =>
      have hr : ¬(r.name = c.name) := h r (List.mem_cons_self r rs)
      have ih' := ih (fun row hm => h row (List.mem_cons_of_mem r hm))
      simp [update_first, hr, ih']

/-- The `remove_column` loop leaves the rows unchanged when no row
identifier matches. -/
theorem remove_first_no_match (cols : List ColumnRow) (c : ColumnInput)
    (h : ∀ row ∈ cols, row.name ≠ c.name) : remove_first cols c = cols := by
  induction cols with
  | nil => rfl
  | cons r rs ih =>
      have hr : ¬(r.name = c.name) := h r (List.mem_cons_self r rs)
      have ih' := ih (fun row hm => h row (List.mem_cons_of_mem r hm))
      simp [remove_first, hr, ih']

/-- The limit stored in a query built by `build` is the limit it was
given. -/
theorem build_limit (tables : List (Option String)) (columns : List Expr)
    (group_by_columns : List Expr) (order_by_columns : List (Expr × String))
    (filters : List Criterion) (limit : Int) (q : SqlQuery)
    (h : build tables columns group_by_columns order_by_columns filters limit
          = .ok q) : q.limit = limit := by
  simp only [build] at h
  cases hm : order_by_columns.mapM (fun co =>
      if co.2 = "asc" || co.2 = "desc" then Except.ok co
      else Except.error Err.keyError) with
  | error e => rw [hm] at h; simp at h
  | ok ob =>
      rw [hm] at h
      simp only [ok_bind, pure_eq_ok, Except.ok.injEq] at h
      subst h
      rfl

/-- C1: for a column spec with aggregation "Count Distinct", the column
processor's aggregation step produces exactly `Count(Distinct(X))` —
the Distinct wrap first, then the Count wrap, no other wrap — and leaves
the group-by accumulator untouched. -/
theorem count_distinct_wrap (x : Expr) (group_by_columns : List Expr) :
    process_aggregation "Count Distinct" x group_by_columns =
      .ok (Expr.agg "Count" (Expr.agg "Distinct" x), group_by_columns) := by
  rfl

/-- A concrete column row with aggregation "Group By" and no format or
order-by. -/
def gbRow : ColumnRow :=
  ⟨some "r1", some "String", some "Status", some "orders", some "status",
   some "Orders", some "Group By", none, none⟩

/-- The select field resolved from `gbRow`. -/
def gbField : Expr :=
  Expr.field (some "orders") (some "status") (some "Status")

/-- C2 counterexample: processing a single "Group By" column puts its
operand in the group-by list AND in the select list — the operand is not
redirected away from the select list, refuting the claim's "instead of
appearing in the select list". -/
theorem group_by_redirect_cex :
    process_columns [gbRow] = .ok ⟨[gbField], [gbField], []⟩ := by
  rfl

/-- The format-transformed operand of a column row, as computed by the
resolution and format steps of the `process_columns` loop. -/
def pcOperand (row : ColumnRow) : Except Err Expr :=
  apply_format_step row (convert_to_select_field row.table row.column row.label)

/-- The group-by accumulator returned by `process_aggregation` is either
unchanged or extended with exactly the returned expression. -/
theorem process_aggregation_gb (a : String) (c : Expr) (gb : List Expr)
    (c' : Expr) (gb' : List Expr)
    (h : process_aggregation a c gb = .ok (c', gb')) :
    gb' = gb ∨ gb' = gb ++ [c'] := by
  by_cases hGB : a = "Group By"
  · subst hGB
    have he : process_aggregation "Group By" c gb = .ok (c, gb ++ [c]) := rfl
    rw [he] at h
    have h2 := Except.ok.inj h
    injection h2 with hc hgb
    subst hc
    subst hgb
    right
    rfl
  · unfold process_aggregation at h
    rw [if_pos hGB] at h
    obtain ⟨c1, h1, h⟩ := bind_eq_ok h
    dsimp only [] at h
    by_cases hcd : a = "Count Distinct"
    · rw [if_pos hcd] at h
      obtain ⟨cd, hd, h⟩ := bind_eq_ok h
      obtain ⟨c2, h2, h⟩ := bind_eq_ok h
      simp only [pure_eq_ok, Except.ok.injEq, Prod.mk.injEq, if_neg hGB] at h
      exact Or.inl h.2.symm
    · rw [if_neg hcd] at h
      simp only [pure_eq_ok, ok_bind, Except.ok.injEq, Prod.mk.injEq, if_neg hGB] at h
      exact Or.inl h.2.symm

/-- The group-by accumulator returned by the guarded aggregation step is
either unchanged or extended with exactly the returned expression. -/
theorem apply_aggregation_step_gb (row : ColumnRow) (c : Expr)
    (gb : List Expr) (c' : Expr) (gb' : List Expr)
    (h : apply_aggregation_step row c gb = .ok (c', gb')) :
    gb' = gb ∨ gb' = gb ++ [c'] := by
  unfold apply_aggregation_step at h
  cases hag : row.aggregation with
  | none =>
      simp only [hag, pure_eq_ok, Except.ok.injEq, Prod.mk.injEq] at h
      exact Or.inl h.2.symm
  | some a =>
      simp only [hag] at h
      by_cases he : a = ""
      · rw [if_pos he] at h
        simp only [pure_eq_ok, Except.ok.injEq, Prod.mk.injEq] at h
        exact Or.inl h.2.symm
      · rw [if_neg he] at h
        exact process_aggregation_gb a c gb c' gb' h

/-- One successful `process_columns` loop iteration appends exactly one
expression to the select accumulator and only appends to the group-by
accumulator. -/
theorem step_mono (row : ColumnRow) (acc acc' : ProcessedColumns)
    (h : process_columns_step row acc = .ok acc') :
    (∃ cs, acc'.columns = acc.columns ++ cs) ∧
    (∃ gs, acc'.group_by_columns = acc.group_by_columns ++ gs) := by
  unfold process_columns_step at h
  obtain ⟨e, hf, h⟩ := bind_eq_ok h
  obtain ⟨res, hagg, h⟩ := bind_eq_ok h
  obtain ⟨c2, gb2⟩ := res
  have hgb := apply_aggregation_step_gb row e acc.group_by_columns c2 gb2 hagg
  dsimp only [] at h
  simp only [pure_eq_ok, Except.ok.injEq] at h
  subst h
  refine ⟨⟨[c2], rfl⟩, ?_⟩
  rcases hgb with hgb | hgb
  · exact ⟨[], by simp [hgb]⟩
  · exact ⟨[c2], by simp [hgb]⟩

/-- A successful run of the `process_columns` loop only extends the
select and group-by accumulators it starts from. -/
theorem fold_mono (rows : List ColumnRow) :
    ∀ (acc res : ProcessedColumns),
    rows.foldlM (fun acc row => process_columns_step row acc) acc = .ok res →
    (∃ cs, res.columns = acc.columns ++ cs) ∧
    (∃ gs, res.group_by_columns = acc.group_by_columns ++ gs) := by
  induction rows with
  | nil =>
      intro acc res h
      simp only [List.foldlM_nil, pure_eq_ok, Except.ok.injEq] at h
      subst h
      exact ⟨⟨[], by simp⟩, ⟨[], by simp⟩⟩
  | cons r rs ih =>
      intro acc res h
      rw [List.foldlM_cons] at h
      obtain ⟨acc1, hstep, hrest⟩ := bind_eq_ok h
      obtain ⟨⟨cs1, hc1⟩, ⟨gs1, hg1⟩⟩ := step_mono r acc acc1 hstep
      obtain ⟨⟨cs2, hc2⟩, ⟨gs2, hg2⟩⟩ := ih acc1 res hrest
      exact ⟨⟨cs1 ++ cs2, by rw [hc2, hc1, List.append_assoc]⟩,
             ⟨gs1 ++ gs2, by rw [hg2, hg1, List.append_assoc]⟩⟩

/-- A successful `process_columns` loop iteration on a "Group By" row
appends its format-transformed operand, unwrapped, to BOTH the select
accumulator and the group-by accumulator, whatever its order-by is. -/
theorem step_group_by (row : ColumnRow) (acc acc' : ProcessedColumns)
    (ha : row.aggregation = some "Group By")
    (h : process_columns_step row acc = .ok acc') :
    ∃ e, pcOperand row = .ok e ∧
      acc'.columns = acc.columns ++ [e] ∧
      acc'.group_by_columns = acc.group_by_columns ++ [e] := by
  unfold process_columns_step at h
  obtain ⟨e, hf, h⟩ := bind_eq_ok h
  obtain ⟨res, hagg, h⟩ := bind_eq_ok h
  unfold apply_aggregation_step at hagg
  simp only [ha] at hagg
  have hne : ("Group By" : String) ≠ "" := by decide
  rw [if_neg hne] at hagg
  have hpa : process_aggregation "Group By" e acc.group_by_columns =
      .ok (e, acc.group_by_columns ++ [e]) := rfl
  rw [hpa] at hagg
  have hres : (e, acc.group_by_columns ++ [e]) = res := Except.ok.inj hagg
  subst hres
  dsimp only [] at h
  simp only [pure_eq_ok, Except.ok.injEq] at h
  subst h
  exact ⟨e, hf, rfl, rfl⟩

/-- C2 (amended): in every successfully processed report, every column
spec whose aggregation is "Group By" has its format-transformed operand
added unwrapped to the group-by list AND also appearing, unwrapped, in
the select list — it is not redirected away from the select list. -/
theorem group_by_also_selected (rows : List ColumnRow)
    (res : ProcessedColumns) (h : process_columns rows = .ok res) :
    ∀ row ∈ rows, row.aggregation = some "Group By" →
    ∃ e, pcOperand row = .ok e ∧
      e ∈ res.columns ∧ e ∈ res.group_by_columns := by
  suffices haux : ∀ (l : List ColumnRow) (acc r : ProcessedColumns),
      l.foldlM (fun acc row => process_columns_step row acc) acc = .ok r →
      ∀ row ∈ l, row.aggregation = some "Group By" →
      ∃ e, pcOperand row = .ok e ∧ e ∈ r.columns ∧ e ∈ r.group_by_columns by
    exact haux rows ⟨[], [], []⟩ res h
  intro l
  induction l with
  | nil => intro acc r h row hm; exact absurd hm (List.not_mem_nil row)
  | cons c cs ih =>
      intro acc r h row hm ha
      rw [List.foldlM_cons] at h
      obtain ⟨acc1, hstep, hrest⟩ := bind_eq_ok h
      rcases List.mem_cons.mp hm with hEq | hMem
      · subst hEq
        obtain ⟨e, hpc, hcols, hgb⟩ := step_group_by row acc acc1 ha hstep
        obtain ⟨⟨cs2, hc2⟩, ⟨gs2, hg2⟩⟩ := fold_mono cs acc1 r hrest
        refine ⟨e, hpc, ?_, ?_⟩
        · rw [hc2, hcols]; simp
        · rw [hg2, hgb]; simp
      · exact ih acc1 r hrest row hMem ha

/-- A "Group By" column row carrying both a recognized format and an
order-by direction. -/
def gbRow2 : ColumnRow :=
  ⟨some "r2", some "Date", some "Day", some "orders", some "creation",
   some "Orders", some "Group By", some "Month", some "asc"⟩

/-- The format-transformed operand of `gbRow2`. -/
def gbExpr2 : Expr :=
  Expr.format "Month" (Expr.field (some "orders") (some "creation") (some "Day"))

/-- Witness for the amended C2 at a concrete report with a formatted,
order-by-carrying "Group By" column. -/
theorem group_by_also_selected_witness :
    ∃ e, pcOperand gbRow2 = .ok e ∧
      e ∈ (⟨[gbExpr2], [gbExpr2], [(gbExpr2, "asc")]⟩ : ProcessedColumns).columns ∧
      e ∈ (⟨[gbExpr2], [gbExpr2], [(gbExpr2, "asc")]⟩ : ProcessedColumns).group_by_columns :=
  group_by_also_selected [gbRow2] ⟨[gbExpr2], [gbExpr2], [(gbExpr2, "asc")]⟩
    rfl gbRow2 (List.mem_singleton.mpr rfl) rfl

/-- C3: a report with no column rows or a falsy filters field saves an
empty result sequence, leaves every other stored field (including `sql`)
unchanged, and is independent of the data-source executor — no query is
built or executed. -/
theorem empty_report_short_circuit (doc : QueryDoc)
    (exec : SqlQuery → List (List String))
    (h : doc.columns = [] ∨ doc.filters = none) :
    before_save doc exec = .ok { doc with result := [] } ∧
    ∀ exec', before_save doc exec = before_save doc exec' := by
  obtain ⟨ds, cols, fil, lim, tbl, sq, res⟩ := doc
  simp only at h
  rcases h with h | h
  · subst h
    exact ⟨rfl, fun _ => rfl⟩
  · subst h
    cases cols with
    | nil => exact ⟨rfl, fun _ => rfl⟩
    | cons c cs => exact ⟨rfl, fun _ => rfl⟩

/-- An empty report document. -/
def doc0 : QueryDoc := ⟨none, [], none, none, [], none, []⟩

/-- A trivial data-source executor. -/
def exec0 : SqlQuery → List (List String) := fun _ => []

/-- Witness for C3 at the empty report. -/
theorem empty_report_short_circuit_witness :
    before_save doc0 exec0 = .ok { doc0 with result := [] } :=
  (empty_report_short_circuit doc0 exec0 (Or.inl rfl)).1

/-- A well-formed leaf condition `orders.status equals "paid"`. -/
def leafA : FilterNode :=
  .mk none [] (some ⟨some "orders", some "status", none, none⟩)
     (some ⟨none, none, none, some "paid"⟩) (some ⟨some "equals"⟩) none

/-- A root group whose combinator is the invalid value "Neither". -/
def rootBad : FilterNode := .mk (some "Neither") [leafA] none none none none

/-- C4 counterexample: a filter tree whose root combinator "Neither" is
outside {All, Any} does not fail at all — it compiles successfully, the
invalid combinator silently treated as Any.  No `MalformedFilterTree`
failure exists in the code. -/
theorem bad_combinator_compiles_cex :
    process_filters rootBad =
      .ok [Criterion.any [Criterion.operation "equals"
        (Expr.field (some "orders") (some "status") none) (Operand.str "paid")]] := by
  rfl

/-- C4 (amended): a condition node lacking its left operand, its right
operand dictionary or its operator makes compilation fail, but with a
generic type error — there is no dedicated MalformedFilterTree failure —
while a combinator different from "All" (valid "Any" or any invalid
value) never fails, neither at the root wrapper nor at a nested group
node: the group's predicates are silently combined with
`Criterion.any`. -/
theorem malformed_filter_behavior :
    (∀ cond : FilterNode,
        cond.left = none ∨ cond.right = none ∨ cond.operator = none →
        convert_to_expression cond = .error .typeError) ∧
    (∀ (root : FilterNode) (cs : List Criterion),
        root.group_operator ≠ some "All" → process_filter_group root = .ok cs →
        process_filters root = .ok [Criterion.any cs]) ∧
    (∀ (f : FilterNode) (rest : List FilterNode) (cs others : List Criterion),
        pyTruthy f.group_operator = true → f.group_operator ≠ some "All" →
        process_filter_group f = .ok cs → process_conditions rest = .ok others →
        process_conditions (f :: rest) = .ok (Criterion.any cs :: others)) := by
  refine ⟨?_, ?_, ?_⟩
  · intro cond h
    obtain ⟨go, conds, l, r, op, rt⟩ := cond
    cases l with
    | none => rfl
    | some l' =>
        cases r with
        | none => rfl
        | some r' =>
            cases op with
            | none => rfl
            | some op' =>
                simp [FilterNode.left, FilterNode.right, FilterNode.operator] at h
  · intro root cs h1 h2
    simp [process_filters, h2, h1]
  · intro f rest cs others ht hne h1 h2
    simp [process_conditions, ht, hne, h1, h2]

/-- Witness for the amended C4: a condition without an operator fails
with the type error, a root with combinator "Any" compiles to an
any-combination, and a nested group child with the invalid combinator
"Neither" compiles to an any-combination. -/
theorem malformed_filter_behavior_witness :
    convert_to_expression
      (.mk none [] (some ⟨some "orders", some "status", none, none⟩)
        (some ⟨none, none, none, none⟩) none none) = .error .typeError ∧
    process_filters (.mk (some "Any") [] none none none none) =
      .ok [Criterion.any []] ∧
    process_conditions [.mk (some "Neither") [] none none none none] =
      .ok [Criterion.any []] :=
  ⟨malformed_filter_behavior.1
      (.mk none [] (some ⟨some "orders", some "status", none, none⟩)
        (some ⟨none, none, none, none⟩) none none)
      (Or.inr (Or.inr rfl)),
   malformed_filter_behavior.2.1 (.mk (some "Any") [] none none none none) []
      (by decide) rfl,
   malformed_filter_behavior.2.2 (.mk (some "Neither") [] none none none none)
      [] [] [] rfl (by decide) rfl rfl⟩

/-- C5: `set_limit` throws the user-facing error and applies no mutation
whenever the sanitized input is zero (also the result for every
non-numeric or missing input) or negative; for a positive sanitized
input, every successful save stores exactly that limit. -/
theorem set_limit_spec (doc : QueryDoc) (v : PyVal)
    (exec : SqlQuery → List (List String)) :
    (cint v ≤ 0 →
      set_limit doc v exec = .error (.frappeThrow "Limit must be a positive integer")) ∧
    (0 < cint v → ∀ doc', set_limit doc v exec = .ok doc' →
      doc'.limit = some (cint v)) := by
  constructor
  · intro h
    have hc : cint v = 0 ∨ cint v < 0 := by omega
    simp only [set_limit]
    rw [if_pos hc]
  · intro h doc' hok
    have hc : ¬(cint v = 0 ∨ cint v < 0) := by omega
    simp only [set_limit] at hok
    rw [if_neg hc] at hok
    have hf := (before_save_fields _ _ _ hok).2.2.2
    simpa using hf

/-- Witness for C5: the string "abc" sanitizes to 0 and throws, while 5
is stored. -/
theorem set_limit_spec_witness :
    set_limit doc0 (PyVal.str "abc") exec0 =
      .error (.frappeThrow "Limit must be a positive integer") ∧
    ({ doc0 with limit := some 5, result := [] } : QueryDoc).limit =
      some (cint (PyVal.int 5)) :=
  ⟨(set_limit_spec doc0 (PyVal.str "abc") exec0).1 (by decide),
   (set_limit_spec doc0 (PyVal.int 5) exec0).2 (by decide) _ rfl⟩

/-- C6: under the stored-limit invariant (a set limit is positive, as
`set_limit` guarantees), the compiled limit equals the stored limit when
one is set and 10 when unset, it is always positive, and the assembled
query carries exactly the compiled limit. -/
theorem compiled_limit_spec (lim : Option Int)
    (hinv : ∀ n, lim = some n → 0 < n) :
    (lim = none → process_limit lim = 10) ∧
    (∀ n, lim = some n → process_limit lim = n) ∧
    (0 < process_limit lim) ∧
    (∀ tables selects group_by_columns order_by_columns filters q,
      build tables selects group_by_columns order_by_columns filters
          (process_limit lim) = .ok q →
      q.limit = process_limit lim) := by
  refine ⟨?_, ?_, ?_, fun t s g o f q h => build_limit t s g o f _ q h⟩
  · intro h; subst h; rfl
  · intro n h
    subst h
    have := hinv n rfl
    have hn : ¬(n = 0) := by omega
    simp [process_limit, hn]
  · cases lim with
    | none => decide
    | some n =>
        have := hinv n rfl
        have hn : ¬(n = 0) := by omega
        simp [process_limit, hn]
        omega

/-- Witness for C6 at the stored limit 5 and at the unset limit. -/
theorem compiled_limit_spec_witness :
    process_limit (some 5) = 5 ∧ 0 < process_limit (some 5) ∧
    process_limit none = 10 := by
  have h5 := compiled_limit_spec (some 5)
    (fun n hn => by injection hn with hn; omega)
  have h0 := compiled_limit_spec none (fun n hn => by cases hn)
  exact ⟨h5.2.1 5 rfl, h5.2.2.1, h0.1 rfl⟩

/-- A leaf condition node with both operand dictionaries present and an
operator dictionary carrying the given operator value. -/
def leaf_condition (l r : OperandDict) (operator_value : String)
    (right_type : Option String) : FilterNode :=
  .mk none [] (some l) (some r) (some ⟨some operator_value⟩) right_type

/-- C7: right-hand-side handling of a leaf condition with a registered
operator.  A column-tagged right side is resolved via the operand
resolver and not coerced; a literal is wildcard-wrapped when the operator
name contains "like", comma-split and stripped when it contains "in"
(and not "like"), nulled when it contains "set" (and neither of the
former), and passed through unchanged otherwise. -/
theorem literal_coercion_spec (l r : OperandDict) (opv : String)
    (rty : Option String) (hk : opv ∈ Operations.known) :
    (rty = some "Column" →
      convert_to_expression (leaf_condition l r opv rty) =
        .ok (Criterion.operation opv
          (convert_to_select_field l.table l.column l.label)
          (Operand.expr (convert_to_select_field r.table r.column r.label)))) ∧
    (rty ≠ some "Column" → ∀ v, r.value = some v →
      ((strContains opv "like" = true →
          convert_to_expression (leaf_condition l r opv rty) =
            .ok (Criterion.operation opv
              (convert_to_select_field l.table l.column l.label)
              (Operand.str ("%" ++ v ++ "%")))) ∧
       (strContains opv "like" = false → strContains opv "in" = true →
          convert_to_expression (leaf_condition l r opv rty) =
            .ok (Criterion.operation opv
              (convert_to_select_field l.table l.column l.label)
              (Operand.list ((pySplit ',' v.toList).map
                (fun d => String.mk (pyStrip d)))))) ∧
       (strContains opv "like" = false → strContains opv "in" = false →
        strContains opv "set" = true →
          convert_to_expression (leaf_condition l r opv rty) =
            .ok (Criterion.operation opv
              (convert_to_select_field l.table l.column l.label)
              Operand.null)) ∧
       (strContains opv "like" = false → strContains opv "in" = false →
        strContains opv "set" = false →
          convert_to_expression (leaf_condition l r opv rty) =
            .ok (Criterion.operation opv
              (convert_to_select_field l.table l.column l.label)
              (Operand.str v))))) := by
  have hop : Operations.get_operation (some opv) = .ok (Criterion.operation opv) := by
    simp [Operations.get_operation, hk]
  constructor
  · intro hc
    subst hc
    simp [convert_to_expression, leaf_condition, dictOf, dictOfOp,
          FilterNode.left, FilterNode.right, FilterNode.operator,
          FilterNode.right_type, hop]
  · intro hc v hv
    refine ⟨fun hlike => ?_, fun hlike hin => ?_,
            fun hlike hin hset => ?_, fun hlike hin hset => ?_⟩
    · simp [convert_to_expression, leaf_condition, dictOf, dictOfOp,
            FilterNode.left, FilterNode.right, FilterNode.operator,
            FilterNode.right_type, hop, hc, hv, hlike, pyStr]
    · simp [convert_to_expression, leaf_condition, dictOf, dictOfOp,
            FilterNode.left, FilterNode.right, FilterNode.operator,
            FilterNode.right_type, hop, hc, hv, hlike, hin]
    · simp [convert_to_expression, leaf_condition, dictOf, dictOfOp,
            FilterNode.left, FilterNode.right, FilterNode.operator,
            FilterNode.right_type, hop, hc, hv, hlike, hin, hset]
    · simp [convert_to_expression, leaf_condition, dictOf, dictOfOp,
            FilterNode.left, FilterNode.right, FilterNode.operator,
            FilterNode.right_type, hop, hc, hv, hlike, hin, hset]

/-- Witness for C7: the "in" operator with value "a, b,c" yields the
trimmed list, and the "like" operator with value "abc" yields the
wildcard literal. -/
theorem literal_coercion_spec_witness :
    (convert_to_expression
        (leaf_condition ⟨some "orders", some "status", none, none⟩
          ⟨none, none, none, some "a, b,c"⟩ "in" none) =
      .ok (Criterion.operation "in"
        (convert_to_select_field (some "orders") (some "status") none)
        (Operand.list (((pySplit ',' "a, b,c".toList)).map
          (fun d => String.mk (pyStrip d)))))) ∧
    ((pySplit ',' "a, b,c".toList).map (fun d => String.mk (pyStrip d)) =
      ["a", "b", "c"]) ∧
    (convert_to_expression
        (leaf_condition ⟨some "orders", some "status", none, none⟩
          ⟨none, none, none, some "abc"⟩ "like" none) =
      .ok (Criterion.operation "like"
        (convert_to_select_field (some "orders") (some "status") none)
        (Operand.str "%abc%"))) :=
  ⟨(((literal_coercion_spec ⟨some "orders", some "status", none, none⟩
        ⟨none, none, none, some "a, b,c"⟩ "in" none (by decide)).2
      (by decide) "a, b,c" rfl).2.1 (by decide) (by decide)),
   by decide,
   (((literal_coercion_spec ⟨some "orders", some "status", none, none⟩
        ⟨none, none, none, some "abc"⟩ "like" none (by decide)).2
      (by decide) "abc" rfl).1 (by decide))⟩

/-- C8: the formatted result is the header row followed by the data rows
unchanged; each header entry is the select expression's alias when one is
present (and non-empty, since Python tests truthiness), and its raw name
otherwise. -/
theorem header_row_spec (cols : List PikaTerm) (rows : List (List String)) :
    format_result cols rows = (cols.map py_or_name) :: rows ∧
    ∀ t ∈ cols,
      (t.alias_ = none → py_or_name t = t.name) ∧
      (∀ a, t.alias_ = some a → a ≠ "" → py_or_name t = a) := by
  refine ⟨rfl, fun t ht => ⟨fun h => ?_, fun a ha hne => ?_⟩⟩
  · simp [py_or_name, h]
  · simp [py_or_name, ha, hne]

/-- Witness for C8: an aliased and an alias-free select expression. -/
theorem header_row_spec_witness :
    format_result [⟨some "total", "amount"⟩, ⟨none, "status"⟩] [["5", "paid"]] =
      ([⟨some "total", "amount"⟩, ⟨none, "status"⟩].map py_or_name) :: [["5", "paid"]] ∧
    py_or_name ⟨some "total", "amount"⟩ = "total" ∧
    py_or_name ⟨none, "status"⟩ = "status" :=
  ⟨(header_row_spec [⟨some "total", "amount"⟩, ⟨none, "status"⟩] [["5", "paid"]]).1,
   ((header_row_spec [⟨some "total", "amount"⟩, ⟨none, "status"⟩]
      [["5", "paid"]]).2 ⟨some "total", "amount"⟩ (by simp)).2 "total" rfl (by decide),
   ((header_row_spec [⟨some "total", "amount"⟩, ⟨none, "status"⟩]
      [["5", "paid"]]).2 ⟨none, "status"⟩ (by simp)).1 rfl⟩

/-- C9: when no column row matches the request's row identifier,
`update_column` and `remove_column` behave exactly like a plain re-save
of the unchanged document; in particular on a document whose save is
stable they succeed and return the document unchanged, raising no
error. -/
theorem missing_row_noop (doc : QueryDoc) (input : ColumnInput)
    (exec : SqlQuery → List (List String))
    (h : ∀ row ∈ doc.columns, row.name ≠ input.name) :
    update_column doc input exec = before_save doc exec ∧
    remove_column doc input exec = before_save doc exec ∧
    (before_save doc exec = .ok doc →
      update_column doc input exec = .ok doc ∧
      remove_column doc input exec = .ok doc) := by
  have hu : update_first doc.columns input = doc.columns :=
    update_first_no_match doc.columns input h
  have hr : remove_first doc.columns input = doc.columns :=
    remove_first_no_match doc.columns input h
  have h1 : update_column doc input exec = before_save doc exec := by
    simp only [update_column, hu]
  have h2 : remove_column doc input exec = before_save doc exec := by
    simp only [remove_column, hr]
  exact ⟨h1, h2, fun hs => ⟨h1.trans hs, h2.trans hs⟩⟩

/-- A stable one-column document whose filters field is unset, so saving
short-circuits; its single row has identifier "r9". -/
def doc9 : QueryDoc :=
  ⟨none, [⟨some "r9", none, none, some "orders", some "status",
           none, none, none, none⟩], none, none, [], none, []⟩

/-- Witness for C9: an update and a removal targeting the absent row
identifier "zz" return the document unchanged. -/
theorem missing_row_noop_witness :
    update_column doc9 ⟨some "zz", none, none, none, none, none, none, none, none⟩
      exec0 = .ok doc9 ∧
    remove_column doc9 ⟨some "zz", none, none, none, none, none, none, none, none⟩
      exec0 = .ok doc9 :=
  (missing_row_noop doc9
      ⟨some "zz", none, none, none, none, none, none, none, none⟩ exec0
      (by decide)).2.2 rfl

/-- C10: a successful `add_column` appends exactly one row built from the
input's type, label, table, column, table label and aggregation; the
appended row carries no format and no order-by. -/
theorem add_column_fields_spec (doc : QueryDoc) (input : ColumnInput)
    (exec : SqlQuery → List (List String)) (doc' : QueryDoc)
    (h : add_column doc input exec = .ok doc') :
    doc'.columns = doc.columns ++ [new_column input] ∧
    (new_column input).format = none ∧
    (new_column input).order_by = none ∧
    (new_column input).type = input.type ∧
    (new_column input).label = input.label ∧
    (new_column input).table = input.table ∧
    (new_column input).column = input.column ∧
    (new_column input).table_label = input.table_label ∧
    (new_column input).aggregation = input.aggregation := by
  have hf := (before_save_fields _ _ _ h).2.1
  simp only at hf
  exact ⟨hf, rfl, rfl, rfl, rfl, rfl, rfl, rfl, rfl⟩

/-- Witness for C10: adding a column with a format and order-by supplied
in the input still yields a fresh row without them. -/
theorem add_column_fields_spec_witness :
    ({ doc0 with
        columns := [new_column ⟨none, some "String", some "Status",
          some "orders", some "status", some "Orders", some "Sum",
          some "Month", some "asc"⟩],
        result := [] } : QueryDoc).columns =
      doc0.columns ++ [new_column ⟨none, some "String", some "Status",
        some "orders", some "status", some "Orders", some "Sum",
        some "Month", some "asc"⟩] ∧
    (new_column ⟨none, some "String", some "Status", some "orders",
      some "status", some "Orders", some "Sum", some "Month",
      some "asc"⟩).format = none ∧
    (new_column ⟨none, some "String", some "Status", some "orders",
      some "status", some "Orders", some "Sum", some "Month",
      some "asc"⟩).order_by = none ∧
    (new_column ⟨none, some "String", some "Status", some "orders",
      some "status", some "Orders", some "Sum", some "Month",
      some "asc"⟩).type = some "String" ∧
    (new_column ⟨none, some "String", some "Status", some "orders",
      some "status", some "Orders", some "Sum", some "Month",
      some "asc"⟩).label = some "Status" ∧
    (new_column ⟨none, some "String", some "Status", some "orders",
      some "status", some "Orders", some "Sum", some "Month",
      some "asc"⟩).table = some "orders" ∧
    (new_column ⟨none, some "String", some "Status", some "orders",
      some "status", some "Orders", some "Sum", some "Month",
      some "asc"⟩).column = some "status" ∧
    (new_column ⟨none, some "String", some "Status", some "orders",
      some "status", some "Orders", some "Sum", some "Month",
      some "asc"⟩).table_label = some "Orders" ∧
    (new_column ⟨none, some "String", some "Status", some "orders",
      some "status", some "Orders", some "Sum", some "Month",
      some "asc"⟩).aggregation = some "Sum" :=
  add_column_fields_spec doc0
    ⟨none, some "String", some "Status", some "orders", some "status",
     some "Orders", some "Sum", some "Month", some "asc"⟩ exec0 _ rfl

end Insights
